import Mathlib

/-!
# Verification development for the uslient-service authentication core

Shallow embedding of the token-issuance / token-validation / session-store
subsystem of the repository:

* `src/internal/utils/generate_token.go` — `GenerateToken`
* `src/internal/user/auth_service.go`    — `AuthServiceImpl.Login`,
  `AuthServiceImpl.ValidateToken`
* `src/internal/utils` (unnamed part_000) — `utils.ValidateToken`
* `src/internal/user/repository.go`      — `UserPersistRepository.CreateSession`,
  `UserPersistRepository.GetSession`
* `src/constants/redis_keys.go`          — key formats

Modelling conventions:

* Wall-clock instants are `Int`s.  Token claims use Unix seconds (the Go code
  calls `.Unix()`), session timestamps use nanoseconds since the epoch of Go's
  zero `time.Time` (so `t = 0` models Go's `Time.IsZero()`).
* The JWT library (`golang-jwt/jwt/v4`) is embedded at the level the Go code
  observes it: a token is its decoded header algorithm, decoded claim set and a
  signature; HMAC signing is the idealised (injective) MAC `hmacSign`, so a
  signature is valid iff it was produced over the same algorithm, key bytes and
  claim set.  `jwt.Parse`'s control flow — keyfunc first, then registered-claim
  validation, then signature verification, errors aggregated — is reproduced in
  `jwtParseT`, which also records which parser phases ran.
* Redis is a pure state (`RedisState`): hashes are association lists keyed by
  the redis key, plus per-key TTLs and the active-users set.  `HSet` merges
  fields into an existing hash (redis semantics), `Del` drops key and TTL.
* A stored hash value is either plain text (`RVal.str`) or the RFC3339 text of
  a whole-second instant (`RVal.rfc3339 sec`); `time.Format(time.RFC3339)`
  truncates to seconds (`Int.fdiv · 1000000000`), and `time.Parse` recovers
  exactly that whole-second instant.
-/

/-- Association-list lookup (first binding wins), the model of map/field
access in both claim sets and redis hashes. -/
def getA {α : Type} (l : List (String × α)) (k : String) : Option α :=
  match l with
  | [] => none
  | (k', v) :: rest => if k = k' then some v else getA rest k

/-- Association-list update in place (append if absent): the model of a map
assignment / a redis `HSET` of one field. -/
def setA {α : Type} (l : List (String × α)) (k : String) (v : α) :
    List (String × α) :=
  match l with
  | [] => [(k, v)]
  | (k', v') :: rest => if k = k' then (k, v) :: rest else (k', v') :: setA rest k v

/-! ## Token layer (`golang-jwt/jwt/v4` as observed by the Go code) -/

/-- JWT signing algorithms distinguishable by the code's keyfunc: the three
`SigningMethodHMAC` instances and representatives of the non-HMAC methods. -/
inductive Alg : Type
  | HS256 | HS384 | HS512 | RS256 | ES256 | none_
deriving DecidableEq, Repr

/-- The keyfunc's type assertion `token.Method.(*jwt.SigningMethodHMAC)`:
true exactly for the HMAC family. -/
def Alg.isHMAC : Alg → Bool
  | .HS256 | .HS384 | .HS512 => true
  | _ => false

/-- Text of the `alg` header, as interpolated by `fmt.Errorf("unexpected
signing method: %v", token.Header["alg"])`. -/
def Alg.algName : Alg → String
  | .HS256 => "HS256"
  | .HS384 => "HS384"
  | .HS512 => "HS512"
  | .RS256 => "RS256"
  | .ES256 => "ES256"
  | .none_ => "none"

/-- A decoded claim value (`jwt.MapClaims` entry): a JSON string or a JSON
number.  Go's JSON decoding gives numbers as `float64`; the code only ever
stores and reads whole seconds, modelled as `Int`. -/
inductive CVal : Type
  | str (s : String)
  | num (n : Int)
deriving DecidableEq, Repr

/-- An idealised MAC tag: HMAC is modelled as injective in algorithm, key and
signed payload, so a tag verifies against exactly the inputs that produced
it. -/
structure Sig : Type where
  alg : Alg
  key : String
  payload : List (String × CVal)
deriving DecidableEq, Repr

/-- `SigningMethodHMAC.Sign` over the encoded claim set. -/
def hmacSign (alg : Alg) (key : String) (payload : List (String × CVal)) : Sig :=
  ⟨alg, key, payload⟩

/-- A decoded JWT: `alg` header, claim set, signature segment. -/
structure Token : Type where
  alg : Alg
  claims : List (String × CVal)
  sig : Sig
deriving DecidableEq, Repr

/-- A signing key as passed to `SignedString` / `Verify`: the HMAC methods
accept exactly `[]byte` keys (any byte content, including empty) and fail with
`ErrInvalidKeyType` on anything else. -/
inductive Key : Type
  | bytes (b : String)
  | other
deriving DecidableEq

/-- `SigningMethodHMAC.Sign` (jwt/v4 `hmac.go`): succeeds for every `[]byte`
key — the underlying `crypto/hmac` accepts empty keys — and fails only when
the key is not a byte slice. -/
def hmacMethodSign (alg : Alg) (key : Key) (payload : List (String × CVal)) :
    Except String Sig :=
  match key with
  | .bytes b => .ok (hmacSign alg b payload)
  | .other => .error "key is of invalid type"

/-- `utils.GenerateToken(username, id)` from
`src/internal/utils/generate_token.go`, at issuance instant `now` (Unix
seconds) with the configured secret `config.EnvLoad().JwtScretKey`:
builds an HS256 token with claims `userId`, `username` and
`exp = now + 7*24h`, then signs with the secret's bytes. -/
def generateToken (secret username id : String) (now : Int) :
    Except String Token :=
  let claims : List (String × CVal) :=
    [("userId", .str id), ("username", .str username),
     ("exp", .num (now + 7 * 24 * 60 * 60))]
  match hmacMethodSign .HS256 (.bytes secret) claims with
  | .error e => .error ("failed to sign token: " ++ e)
  | .ok sig => .ok { alg := .HS256, claims := claims, sig := sig }

/-- Outcomes of `jwt.Parse` that the Go code can observe: the keyfunc's own
error (returned before any signature check), or the aggregated validation
error carrying the expired and signature-invalid flags. -/
inductive JwtError : Type
  | keyfuncError
  | validationError (expired : Bool) (sigInvalid : Bool)
deriving DecidableEq, Repr

/-- Parser phases of jwt/v4 `Parser.ParseWithClaims`, in execution order. -/
inductive Phase : Type
  | decode | keyfunc | claimsCheck | sigVerify
deriving DecidableEq, Repr

/-- `MapClaims.VerifyExpiresAt(now, false)` (jwt/v4 `map_claims.go`): true when
no `exp` claim is present or it is the number 0; a numeric `exp` passes while
`now` is strictly before it; a non-numeric `exp` fails. -/
def expClaimOk (claims : List (String × CVal)) (now : Int) : Bool :=
  match getA claims "exp" with
  | none => true
  | some (.num e) => if e = 0 then true else decide (now < e)
  | some (.str _) => false

/-- `jwt.Parse` with the keyfunc both `ValidateToken`s use (reject non-HMAC
methods, return the secret's bytes), instrumented with the list of parser
phases that executed.  Mirrors jwt/v4 `Parser.ParseWithClaims`: decode, then
keyfunc (its error returns immediately), then `Claims.Valid()` (the `exp`
check), then `Method.Verify`; the last two errors are aggregated, with the
signature error overwriting the inner message. -/
def jwtParseT (secret : String) (now : Int) (t : Token) :
    Except JwtError Token × List Phase :=
  if t.alg.isHMAC then
    let expOk := expClaimOk t.claims now
    let sigOk := t.sig = hmacSign t.alg secret t.claims
    (if expOk ∧ sigOk then .ok t
     else .error (.validationError (!expOk) (decide (¬ sigOk))),
     [.decode, .keyfunc, .claimsCheck, .sigVerify])
  else
    (.error .keyfuncError, [.decode, .keyfunc])

/-- The result component of `jwtParseT`. -/
def jwtParse (secret : String) (now : Int) (t : Token) :
    Except JwtError Token :=
  (jwtParseT secret now t).1

/-- The error string `jwt.Parse` surfaces to its caller: the keyfunc's inner
error for an algorithm mismatch (`errors.New("unexpected signing method")` in
`auth_service.go`'s keyfunc), else the aggregated validation error's message,
where a signature failure overwrites the claims failure. -/
def jwtErrMsg : JwtError → String
  | .keyfuncError => "unexpected signing method"
  | .validationError expired sigInvalid =>
      if sigInvalid then "signature is invalid"
      else if expired then "token is expired"
      else "token is unverifiable"

/-- `AuthServiceImpl.ValidateToken` from `src/internal/user/auth_service.go`:
parse with the HMAC-only keyfunc, propagate parse errors, then re-check the
`exp` claim (`float64` assertion, expired when `exp < now`) and extract the
user id from the `sub` claim (string assertion). -/
def validateToken (secret : String) (now : Int) (t : Token) :
    Except String String :=
  match jwtParse secret now t with
  | .error e => .error (jwtErrMsg e)
  | .ok tok =>
    match getA tok.claims "exp" with
    | some (.num e) =>
        if e < now then .error "token expired"
        else
          match getA tok.claims "sub" with
          | some (.str userID) => .ok userID
          | _ => .error "invalid user ID in token"
    | _ => .error "invalid token expiration"

/-- `utils.ValidateToken` from the unnamed utils file (part_000): parse with
the same HMAC-only keyfunc (its error text interpolates the `alg` header) and
return the claim set of a valid token. -/
def utilsValidateToken (secret : String) (now : Int) (t : Token) :
    Except String (List (String × CVal)) :=
  match jwtParseT secret now t with
  | (.error .keyfuncError, _) =>
      .error ("failed to parse token: unexpected signing method: "
        ++ t.alg.algName)
  | (.error e, _) => .error ("failed to parse token: " ++ jwtErrMsg e)
  | (.ok tok, _) => .ok tok.claims

/-! ## Session layer (`UserPersistRepository` over redis) -/

/-- A stored redis hash value.  `str s` is plain text; `rfc3339 sec` is the
RFC3339 text produced by `time.Format(time.RFC3339)` for the whole-second
instant `sec` (RFC3339 text at seconds precision and whole-second instants
are in bijection, so the text is modelled by the instant it denotes; any
other string fails `time.Parse(time.RFC3339, ·)`). -/
inductive RVal : Type
  | str (s : String)
  | rfc3339 (sec : Int)
deriving DecidableEq, Repr

/-- Reading a hash value as the plain string Go's `map[string]string` access
yields.  For an RFC3339 value the text is its second count's decimal form (a
stand-in for the RFC3339 text; the session code never reads a timestamp field
as a plain string). -/
def RVal.asString : RVal → String
  | .str s => s
  | .rfc3339 sec => toString sec

/-- Nanoseconds per second: session instants are `Int` nanoseconds. -/
def nsPerSec : Int := 1000000000

/-- `t.Format(time.RFC3339)` followed by `time.Parse(time.RFC3339, ·)`:
the instant truncated (floored) to whole seconds, in nanoseconds. -/
def truncSec (t : Int) : Int := Int.fdiv t nsPerSec * nsPerSec

/-- The redis state the session code touches: per-key field hashes, per-key
TTLs, and the `active_users` set, each modelled as an explicit list. -/
structure RedisState : Type where
  hashes : List (String × List (String × RVal))
  ttls : List (String × Int)
  activeUsers : List String
deriving DecidableEq, Repr

/-- `HGETALL key`: the key's field map, empty when the key is absent. -/
def hgetallRS (st : RedisState) (key : String) : List (String × RVal) :=
  (getA st.hashes key).getD []

/-- `HSET key fields`: merge the given fields into the key's existing hash
(redis keeps fields the write does not mention). -/
def hsetRS (st : RedisState) (key : String) (fields : List (String × RVal)) :
    RedisState :=
  { st with
    hashes := setA st.hashes key
      (fields.foldl (fun acc kv => setA acc kv.1 kv.2) (hgetallRS st key)) }

/-- `EXPIRE key ttl`. -/
def expireRS (st : RedisState) (key : String) (ttl : Int) : RedisState :=
  { st with ttls := setA st.ttls key ttl }

/-- `SADD active_users member`. -/
def saddRS (st : RedisState) (member : String) : RedisState :=
  { st with
    activeUsers :=
      if member ∈ st.activeUsers then st.activeUsers
      else st.activeUsers ++ [member] }

/-- `DEL key`: the key disappears together with its TTL. -/
def delRS (st : RedisState) (key : String) : RedisState :=
  { st with hashes := st.hashes.filter (fun kv => kv.1 ≠ key),
            ttls := st.ttls.filter (fun kv => kv.1 ≠ key) }

/-- The `UserSession` struct of the user package (models file, part_001);
instants in nanoseconds, `0` modelling the zero `time.Time`. -/
structure UserSession : Type where
  id : String
  userID : String
  tokenHash : String
  userAgent : String
  ip : String
  expiresAt : Int
  createdAt : Int
  updatedAt : Int
deriving DecidableEq, Repr

/-- The session key `fmt.Sprintf(constants.UserSessionRK, userID)` with
`UserSessionRK = "session:%s"`. -/
def sessionKey (userID : String) : String := "session:" ++ userID

/-- The field map `CreateSession` writes: `user_id`, `user_agent`, `ip` as
plain strings, the three timestamps formatted with `time.RFC3339`. -/
def sessionFields (s : UserSession) : List (String × RVal) :=
  [("user_id", .str s.userID),
   ("user_agent", .str s.userAgent),
   ("ip", .str s.ip),
   ("expires_at", .rfc3339 (Int.fdiv s.expiresAt nsPerSec)),
   ("created_at", .rfc3339 (Int.fdiv s.createdAt nsPerSec)),
   ("updated_at", .rfc3339 (Int.fdiv s.updatedAt nsPerSec))]

/-- `UserPersistRepository.CreateSession` from `src/internal/user/repository.go`
at instant `now`: default `CreatedAt` when zero, stamp `UpdatedAt`, compute
`ttl = (ExpiresAt - now) * 2` and fail before any store call when it is
non-positive; otherwise `HSET` the six fields at `session:{userId}`, `EXPIRE`
the key, `SADD` the user into `active_users`, and return the (mutated)
session. -/
def createSession (now : Int) (s0 : UserSession) (st : RedisState) :
    Except String UserSession × RedisState :=
  let s1 := if s0.createdAt = 0 then { s0 with createdAt := now } else s0
  let s := { s1 with updatedAt := now }
  let ttl := (s.expiresAt - now) * 2
  if ttl ≤ 0 then
    (.error "session already expired", st)
  else
    let key := sessionKey s.userID
    let st1 := hsetRS st key (sessionFields s)
    let st2 := expireRS st1 key ttl
    let st3 := saddRS st2 s.userID
    (.ok s, st3)

/-- Reading a string field out of `HGETALL`'s map: Go map access defaults to
the empty string for an absent field. -/
def strField (data : List (String × RVal)) (k : String) : String :=
  match getA data k with
  | some v => v.asString
  | none => ""

/-- `time.Parse(time.RFC3339, sessionData[k])`: succeeds exactly on an
RFC3339 value, yielding its whole-second instant in nanoseconds; an absent
field (empty string) or non-RFC3339 text fails. -/
def timeField (data : List (String × RVal)) (k : String) : Option Int :=
  match getA data k with
  | some (.rfc3339 sec) => some (sec * nsPerSec)
  | _ => none

/-- The session-reconstruction block of `GetSession`: start from a session
whose `ID`/`TokenHash` stay zero (they are not stored), read `user_agent` and
`ip` as plain strings, and set each timestamp only when its field parses as
RFC3339 (a failed parse silently leaves the zero value). -/
def readSession (userId : String) (data : List (String × RVal)) : UserSession :=
  let s0 : UserSession :=
    { id := "", userID := userId, tokenHash := "",
      userAgent := strField data "user_agent", ip := strField data "ip",
      expiresAt := 0, createdAt := 0, updatedAt := 0 }
  let s1 := match timeField data "expires_at" with
    | some t => { s0 with expiresAt := t }
    | none => s0
  let s2 := match timeField data "created_at" with
    | some t => { s1 with createdAt := t }
    | none => s1
  match timeField data "updated_at" with
    | some t => { s2 with updatedAt := t }
    | none => s2

/-- `UserPersistRepository.GetSession` from `src/internal/user/repository.go`
at instant `now`: `HGETALL session:{userId}`; empty hash fails with the
not-found error; otherwise rebuild the session via `readSession`, and if
`now` is after the resulting `ExpiresAt` delete the key (best effort: in this
pure store model the delete always succeeds; in the source a delete failure
is only logged) and fail with the expired error, else return the session. -/
def getSession (now : Int) (userId : String) (st : RedisState) :
    Except String UserSession × RedisState :=
  let key := sessionKey userId
  let data := hgetallRS st key
  if data = [] then
    (.error ("session not found for user " ++ userId), st)
  else
    let s := readSession userId data
    if s.expiresAt < now then
      (.error "session has expired", delRS st key)
    else
      (.ok s, st)

/-! ## Service layer: the credential check of `AuthServiceImpl.Login` -/

/-- The caller-relevant part of the `User` record for login. -/
structure LoginUser : Type where
  id : String
  passwordHash : String
deriving DecidableEq, Repr

/-- The `LoginRequest` payload. -/
structure LoginRequest : Type where
  email : String
  password : String
deriving DecidableEq, Repr

/-- The collaborators `Login` consults: `userRepo.GetByEmail` (a `none`
models the repository's lookup error) and the bcrypt comparison
`CheckPasswordHash`. -/
structure LoginEnv : Type where
  getByEmail : String → Option LoginUser
  checkPassword : String → String → Bool

/-- The credential-check prefix of `AuthServiceImpl.Login` from
`src/internal/user/auth_service.go`: a failed email lookup returns
`errors.New("invalid email")`, a failed hash comparison returns
`errors.New("invalid password")`, otherwise the authenticated user flows on
to token issuance and session creation. -/
def loginAuthCheck (env : LoginEnv) (req : LoginRequest) :
    Except String LoginUser :=
  match env.getByEmail req.email with
  | none => .error "invalid email"
  | some user =>
    if env.checkPassword req.password user.passwordHash then .ok user
    else .error "invalid password"

/-! ## Fixtures and derived instances for concrete evaluations -/

/-- An empty redis store, for concrete evaluations. -/
def emptyStore : RedisState := { hashes := [], ttls := [], activeUsers := [] }

/-- A concrete session fixture. -/
def sessEx : UserSession :=
  { id := "", userID := "u1", tokenHash := "", userAgent := "ua",
    ip := "1.2.3.4", expiresAt := 5, createdAt := 0, updatedAt := 0 }

/-- A concrete registered user for exercising `Login`'s credential check. -/
def demoUser : LoginUser := { id := "u1", passwordHash := "secret1" }

/-- A concrete `Login` environment: exactly one account, `a@x.com`, whose
stored hash verifies exactly against the matching plaintext (the bcrypt
comparison is modelled as equality on this fixture). -/
def demoEnv : LoginEnv :=
  { getByEmail := fun e => if e = "a@x.com" then some demoUser else none,
    checkPassword := fun p h => p == h }

/-- The `CreatedAt`/`UpdatedAt` stamping `CreateSession` applies to its input
before storing it: `CreatedAt` defaults to `now` when zero, `UpdatedAt` is
always set to `now`. -/
def mutSession (now : Int) (s : UserSession) : UserSession :=
  { s with createdAt := if s.createdAt = 0 then now else s.createdAt,
           updatedAt := now }

/-- A store holding one session for `u1` whose `expires_at` parsed to the
instant of Unix second 1. -/
def expStore : RedisState :=
  { hashes := [("session:u1",
      [("expires_at", RVal.rfc3339 1), ("user_id", RVal.str "u1")])],
    ttls := [], activeUsers := [] }

/-- First session fixture for the overwrite scenario. -/
def sessFirst : UserSession :=
  { id := "", userID := "u1", tokenHash := "", userAgent := "agent1",
    ip := "ip1", expiresAt := nsPerSec, createdAt := 0, updatedAt := 0 }

/-- Second session fixture for the overwrite scenario. -/
def sessSecond : UserSession :=
  { id := "", userID := "u1", tokenHash := "", userAgent := "agent2",
    ip := "ip2", expiresAt := 2 * nsPerSec, createdAt := 0, updatedAt := 0 }

deriving instance DecidableEq for Except

/-- A session carrying a nonzero `ID` and `TokenHash`, all of whose
timestamps are whole seconds (so RFC3339 truncation cannot excuse any field
difference). -/
def sessTok : UserSession :=
  { id := "sid", userID := "u1", tokenHash := "tok", userAgent := "ua",
    ip := "ip", expiresAt := 2 * nsPerSec, createdAt := nsPerSec,
    updatedAt := 0 }

/-- `sessTok` as `CreateSession` returns it (stamped `UpdatedAt`). -/
def sessTokStamped : UserSession :=
  { id := "sid", userID := "u1", tokenHash := "tok", userAgent := "ua",
    ip := "ip", expiresAt := 2 * nsPerSec, createdAt := nsPerSec,
    updatedAt := nsPerSec }

/-- A store holding one session hash for `u1` with no `expires_at` field. -/
def noExpStore : RedisState :=
  { hashes := [("session:u1", [("user_id", RVal.str "u1")])],
    ttls := [], activeUsers := [] }

/-! ## Helper lemmas -/

theorem getA_setA {α : Type} (l : List (String × α)) (k k' : String) (v : α) :
    getA (setA l k v) k' = if k' = k then some v else getA l k' := by
  induction l with
  | nil =>
    simp only [setA, getA]
  | cons hd tl ih =>
    obtain ⟨k₀, v₀⟩ := hd
    simp only [setA]
    by_cases hk : k = k₀
    · subst hk
      simp only [if_pos rfl, getA]
      by_cases hk' : k' = k
      · simp [hk']
      · simp [hk']
    · simp only [if_neg hk, getA, ih]
      by_cases hk' : k' = k₀
      · subst hk'
        have hne : ¬ k' = k := fun h => hk h.symm
        simp [hne]
      · simp [hk']



/-- Looking a key up after filtering that key out yields nothing (the effect
of `DEL` on its own key). -/
theorem getA_filter_ne_self {α : Type} (l : List (String × α)) (key : String) :
    getA (l.filter (fun kv => kv.1 ≠ key)) key = none := by
  induction l with
  | nil => rfl
  | cons hd tl ih =>
    obtain ⟨k₀, v₀⟩ := hd
    by_cases hk : k₀ = key
    · simp only [List.filter_cons, hk]
      simp only [ne_eq, not_true_eq_false, decide_False]
      simpa [ne_eq, decide_not] using ih
    · have hk' : ¬ key = k₀ := fun h => hk h.symm
      simp [List.filter_cons, hk, getA, hk']
      simpa [ne_eq, decide_not] using ih

/-- After `DEL`, `HGETALL` on the deleted key is empty. -/
theorem hgetallRS_delRS (st : RedisState) (key : String) :
    hgetallRS (delRS st key) key = [] := by
  simp only [hgetallRS, delRS]
  rw [getA_filter_ne_self]
  rfl

/-! ## C3: creating an already-expired session fails with no store writes -/

/-- C3: for every session whose `ExpiresAt` is at or before `now`,
`CreateSession` fails with the already-expired error and returns the store
state unchanged — no hash write, no TTL set, no active-users addition. -/
theorem createSession_expired_no_writes
    (now : Int) (s : UserSession) (st : RedisState) (h : s.expiresAt ≤ now) :
    createSession now s st = (.error "session already expired", st) := by
  simp only [createSession]
  split <;> split <;> first
    | rfl
    | (exfalso; rename_i hguard; simp at hguard; omega)

/-- Witness for C3 at a concrete expired session. -/
theorem createSession_expired_no_writes_witness :
    createSession 5 sessEx emptyStore =
      (.error "session already expired", emptyStore) :=
  createSession_expired_no_writes 5 sessEx emptyStore (by decide)

/-! ## C7: the two login failure modes are user-distinguishable -/

/-- C7 (code bug): `Login` returns the distinct messages `invalid email` for
an unknown account and `invalid password` for a failed hash comparison, so a
caller can tell which factor was wrong — the unified-error property the spec
states does not hold in the code. -/
theorem login_errors_distinguish_unknown_email_from_bad_password :
    loginAuthCheck demoEnv { email := "b@x.com", password := "secret1" } =
      .error "invalid email" ∧
    loginAuthCheck demoEnv { email := "a@x.com", password := "wrong" } =
      .error "invalid password" ∧
    ("invalid email" : String) ≠ "invalid password" :=
  ⟨rfl, rfl, by decide⟩

/-! ## C8: issued tokens carry `userId`, `username` and `exp = now + 7 days` -/

/-- C8: every token `GenerateToken` issues carries the `userId` and
`username` claims and an `exp` claim equal to the issuance instant plus
7 days (604800 seconds). -/
theorem generateToken_claims (secret username id : String) (now : Int) :
    ∃ tok : Token,
      generateToken secret username id now = .ok tok ∧
      getA tok.claims "userId" = some (.str id) ∧
      getA tok.claims "username" = some (.str username) ∧
      getA tok.claims "exp" = some (.num (now + 7 * 24 * 60 * 60)) := by
  refine ⟨_, rfl, ?_, ?_, ?_⟩ <;> simp [getA]

/-! ## C9: issuance does not fail on an empty secret -/

/-- Counterexample to C9: with the empty signing secret (the configured
default for `JWT_SCRET_KEY`), `GenerateToken` returns a token rather than a
signing error. -/
theorem generateToken_empty_secret_issues_token :
    generateToken "" "alice" "u1" 0 =
      .ok { alg := .HS256,
            claims := [("userId", .str "u1"), ("username", .str "alice"),
                       ("exp", .num 604800)],
            sig := hmacSign .HS256 ""
              [("userId", .str "u1"), ("username", .str "alice"),
               ("exp", .num 604800)] } := rfl

/-- C9 amended: `GenerateToken` never fails — the HMAC signing method accepts
every byte-slice key, the empty secret included, so issuance returns a signed
token for every configuration. -/
theorem generateToken_total (secret username id : String) (now : Int) :
    generateToken secret username id now =
      .ok { alg := .HS256,
            claims := [("userId", .str id), ("username", .str username),
                       ("exp", .num (now + 7 * 24 * 60 * 60))],
            sig := hmacSign .HS256 secret
              [("userId", .str id), ("username", .str username),
               ("exp", .num (now + 7 * 24 * 60 * 60))] } := rfl

/-! ## C2: non-HMAC algorithms are rejected before signature verification -/

/-- C2: a token whose declared algorithm is not an HMAC algorithm is rejected
by both `AuthServiceImpl.ValidateToken` and `utils.ValidateToken` with the
algorithm-mismatch error, for every secret, claim set and signature, and the
parser never reaches its signature-verification phase. -/
theorem nonHMAC_rejected_before_signature_verification
    (secret : String) (now : Int) (t : Token) (h : t.alg.isHMAC = false) :
    validateToken secret now t = .error "unexpected signing method" ∧
    utilsValidateToken secret now t =
      .error ("failed to parse token: unexpected signing method: "
        ++ t.alg.algName) ∧
    Phase.sigVerify ∉ (jwtParseT secret now t).2 := by
  unfold validateToken utilsValidateToken jwtParse jwtParseT
  simp [h, jwtErrMsg]

/-- Witness for C2: a concrete RS256 token is rejected by both validators and
the signature-verification phase never runs. -/
theorem nonHMAC_rejected_witness :
    validateToken "s" 0 { alg := .RS256, claims := [], sig := ⟨.RS256, "s", []⟩ } =
      .error "unexpected signing method" ∧
    utilsValidateToken "s" 0 { alg := .RS256, claims := [], sig := ⟨.RS256, "s", []⟩ } =
      .error ("failed to parse token: unexpected signing method: "
        ++ (Alg.RS256).algName) ∧
    Phase.sigVerify ∉
      (jwtParseT "s" 0 { alg := .RS256, claims := [], sig := ⟨.RS256, "s", []⟩ }).2 :=
  nonHMAC_rejected_before_signature_verification "s" 0 _ (by decide)

/-! ## C1: issued tokens never validate — the identity claim names differ -/

/-- C1 (code bug): `GenerateToken` writes the identity under the claim name
`userId`, but `AuthServiceImpl.ValidateToken` reads the subject from `sub`,
so every issued token — validated at any instant before its expiration, with
the matching secret, passing the algorithm, signature and expiry checks —
fails with the invalid-user-ID error instead of returning the user's id. -/
theorem issued_token_never_validates
    (secret username id : String) (n0 t : Int) (tok : Token)
    (hgen : generateToken secret username id n0 = .ok tok)
    (ht : t < n0 + 7 * 24 * 60 * 60) :
    validateToken secret t tok = .error "invalid user ID in token" := by
  unfold generateToken hmacMethodSign at hgen
  simp only [Except.ok.injEq] at hgen
  subst hgen
  unfold validateToken jwtParse jwtParseT
  have hexp : expClaimOk
      [("userId", .str id), ("username", .str username),
       ("exp", .num (n0 + 604800))] t = true := by
    unfold expClaimOk
    simp [getA]
    omega
  simp [Alg.isHMAC, hexp, hmacSign, getA, jwtErrMsg]
  omega

/-- Witness for C1 at the failing input: the token issued at instant 0 for
user `u1` / username `alice` with secret `s`, validated one second later. -/
theorem issued_token_never_validates_witness :
    validateToken "s" 1
      { alg := .HS256,
        claims := [("userId", .str "u1"), ("username", .str "alice"),
                   ("exp", .num 604800)],
        sig := hmacSign .HS256 "s"
          [("userId", .str "u1"), ("username", .str "alice"),
           ("exp", .num 604800)] } = .error "invalid user ID in token" :=
  issued_token_never_validates "s" "alice" "u1" 0 1 _ rfl (by decide)

/-! ## Session-store lemmas -/

/-- A list with a successful lookup is nonempty. -/
theorem ne_nil_of_getA_some {α : Type} {l : List (String × α)} {k : String}
    {v : α} (h : getA l k = some v) : l ≠ [] := by
  intro hl
  subst hl
  simp [getA] at h

/-- `HGETALL` on the key just written by `HSET` returns the merged fields. -/
theorem hgetallRS_hsetRS_same (st : RedisState) (key : String)
    (fields : List (String × RVal)) :
    hgetallRS (hsetRS st key fields) key =
      fields.foldl (fun acc kv => setA acc kv.1 kv.2) (hgetallRS st key) := by
  simp [hgetallRS, hsetRS, getA_setA]

/-- Field lookup in a hash after `CreateSession`'s six-field write: each of
the six field names maps to the session's value, later writes shadowing
earlier ones, and every other key still reads from the pre-existing hash. -/
theorem getA_writeSessionFields (old : List (String × RVal)) (s : UserSession)
    (k : String) :
    getA ((sessionFields s).foldl (fun acc kv => setA acc kv.1 kv.2) old) k =
      if k = "updated_at" then some (.rfc3339 (Int.fdiv s.updatedAt nsPerSec))
      else if k = "created_at" then some (.rfc3339 (Int.fdiv s.createdAt nsPerSec))
      else if k = "expires_at" then some (.rfc3339 (Int.fdiv s.expiresAt nsPerSec))
      else if k = "ip" then some (.str s.ip)
      else if k = "user_agent" then some (.str s.userAgent)
      else if k = "user_id" then some (.str s.userID)
      else getA old k := by
  simp [sessionFields, getA_setA]

/-- `CreateSession` on a not-yet-expired session succeeds, returning the
stamped session, and its store effect is the hash write, the TTL set and the
active-users addition, in that order. -/
theorem createSession_ok (now : Int) (s : UserSession) (st : RedisState)
    (h : now < s.expiresAt) :
    createSession now s st =
      (.ok (mutSession now s),
       saddRS (expireRS
           (hsetRS st (sessionKey s.userID) (sessionFields (mutSession now s)))
           (sessionKey s.userID) ((s.expiresAt - now) * 2))
         s.userID) := by
  unfold createSession mutSession
  have httl : ¬ (s.expiresAt - now) * 2 ≤ 0 := by omega
  by_cases hcz : s.createdAt = 0 <;> simp [hcz, httl]

/-- `GetSession` reports the stored `expires_at` field, or the zero instant
when the field is absent or unparseable. -/
theorem readSession_expiresAt (u : String) (data : List (String × RVal)) :
    (readSession u data).expiresAt = (timeField data "expires_at").getD 0 := by
  unfold readSession
  cases h1 : timeField data "expires_at" <;>
    cases h2 : timeField data "created_at" <;>
      cases h3 : timeField data "updated_at" <;>
        simp [h1, h2, h3]

/-- The record `GetSession` reconstructs from a hash just written by
`CreateSession`'s six-field write: `ID` and `TokenHash` are reset to zero
values, `user_id`/`user_agent`/`ip` round-trip exactly, and each timestamp
comes back truncated to whole seconds. -/
theorem readSession_writeSessionFields (old : List (String × RVal))
    (u : String) (s : UserSession) :
    readSession u
        ((sessionFields s).foldl (fun acc kv => setA acc kv.1 kv.2) old) =
      { id := "", userID := u, tokenHash := "",
        userAgent := s.userAgent, ip := s.ip,
        expiresAt := truncSec s.expiresAt,
        createdAt := truncSec s.createdAt,
        updatedAt := truncSec s.updatedAt } := by
  unfold readSession strField timeField truncSec
  simp [getA_writeSessionFields, RVal.asString]

/-- Create-then-get round trip, over every starting store state: after a
successful `CreateSession` at `now0`, a `GetSession` at any `now1` not past
the stored (second-truncated) expiry returns the stamped session with `ID`
and `TokenHash` zeroed and the timestamps truncated to whole seconds. -/
theorem createGet_roundtrip (now0 now1 : Int) (s : UserSession)
    (st : RedisState) (hc : now0 < s.expiresAt)
    (hg : now1 ≤ truncSec s.expiresAt) :
    (createSession now0 s st).1 = .ok (mutSession now0 s) ∧
    (getSession now1 s.userID (createSession now0 s st).2).1 =
      .ok { id := "", userID := s.userID, tokenHash := "",
            userAgent := s.userAgent, ip := s.ip,
            expiresAt := truncSec s.expiresAt,
            createdAt := truncSec (mutSession now0 s).createdAt,
            updatedAt := truncSec now0 } := by
  rw [createSession_ok now0 s st hc]
  refine ⟨rfl, ?_⟩
  have hdata : hgetallRS
      (saddRS (expireRS
          (hsetRS st (sessionKey s.userID) (sessionFields (mutSession now0 s)))
          (sessionKey s.userID) ((s.expiresAt - now0) * 2))
        s.userID) (sessionKey s.userID) =
      (sessionFields (mutSession now0 s)).foldl
        (fun acc kv => setA acc kv.1 kv.2) (hgetallRS st (sessionKey s.userID)) :=
    hgetallRS_hsetRS_same st (sessionKey s.userID) _
  have hne2 : (sessionFields (mutSession now0 s)).foldl
      (fun acc kv => setA acc kv.1 kv.2)
      (hgetallRS st (sessionKey s.userID)) ≠ [] :=
    ne_nil_of_getA_some (k := "user_id")
      (v := .str (mutSession now0 s).userID)
      (by rw [getA_writeSessionFields]; rfl)
  have hexp : ¬ truncSec (mutSession now0 s).expiresAt < now1 := by
    have he : (mutSession now0 s).expiresAt = s.expiresAt := rfl
    rw [he]
    omega
  unfold getSession
  simp only [hdata, readSession_writeSessionFields]
  rw [if_neg hne2]
  rw [if_neg hexp]
  rfl

/-! ## C4: expired sessions are deleted on read, then read as not found -/

/-- C4: for every stored session whose parsed `expires_at` has elapsed,
`GetSession` deletes the session key and fails with the session-expired
error (in this pure store model the best-effort delete always succeeds; in
the source a delete failure is only logged, not propagated), and a
subsequent `GetSession` for the same user fails with the not-found error
because the hash is then empty. -/
theorem getSession_expired_deletes_then_not_found
    (now now2 : Int) (u : String) (st : RedisState)
    (hne : hgetallRS st (sessionKey u) ≠ [])
    (hexp : (timeField (hgetallRS st (sessionKey u)) "expires_at").getD 0 < now) :
    getSession now u st = (.error "session has expired", delRS st (sessionKey u)) ∧
    (getSession now2 u (delRS st (sessionKey u))).1 =
      .error ("session not found for user " ++ u) := by
  constructor
  · unfold getSession
    rw [if_neg hne]
    rw [if_pos (show (readSession u (hgetallRS st (sessionKey u))).expiresAt < now from by
      rw [readSession_expiresAt]
      exact hexp)]
  · unfold getSession
    simp [hgetallRS_delRS]

/-- Witness for C4: reading `u1`'s elapsed session at second 2 deletes it and
errors; the follow-up read errors with not-found. -/
theorem getSession_expired_deletes_then_not_found_witness :
    getSession (2 * nsPerSec) "u1" expStore =
      (.error "session has expired", delRS expStore (sessionKey "u1")) ∧
    (getSession (2 * nsPerSec) "u1" (delRS expStore (sessionKey "u1"))).1 =
      .error ("session not found for user " ++ "u1") :=
  getSession_expired_deletes_then_not_found (2 * nsPerSec) (2 * nsPerSec)
    "u1" expStore (by decide) (by decide)

/-! ## C5: the second create for a user overwrites the first -/

/-- C5: after two sequential successful `CreateSession` calls for the same
user, the store's single `session:{userId}` key holds the second session:
`GetSession` (the primary lookup path, at any instant not past the second
session's stored expiry) returns the second call's record. -/
theorem second_create_overwrites_first
    (n1 n2 n3 : Int) (s1 s2 : UserSession) (u : String) (st : RedisState)
    (hu1 : s1.userID = u) (hu2 : s2.userID = u)
    (h1 : n1 < s1.expiresAt) (h2 : n2 < s2.expiresAt)
    (h3 : n3 ≤ truncSec s2.expiresAt) :
    (getSession n3 u (createSession n2 s2 (createSession n1 s1 st).2).2).1 =
      .ok { id := "", userID := u, tokenHash := "",
            userAgent := s2.userAgent, ip := s2.ip,
            expiresAt := truncSec s2.expiresAt,
            createdAt := truncSec (mutSession n2 s2).createdAt,
            updatedAt := truncSec n2 } := by
  subst hu2
  exact (createGet_roundtrip n2 n3 s2 (createSession n1 s1 st).2 h2 h3).2

/-- Witness for C5: two concrete creates for `u1`; the lookup returns the
second session's record. -/
theorem second_create_overwrites_first_witness :
    (getSession 0 "u1"
        (createSession 0 sessSecond (createSession 0 sessFirst emptyStore).2).2).1 =
      .ok { id := "", userID := "u1", tokenHash := "",
            userAgent := sessSecond.userAgent, ip := sessSecond.ip,
            expiresAt := truncSec sessSecond.expiresAt,
            createdAt := truncSec (mutSession 0 sessSecond).createdAt,
            updatedAt := truncSec 0 } :=
  second_create_overwrites_first 0 0 0 sessFirst sessSecond "u1" emptyStore
    rfl rfl (by decide) (by decide) (by decide)

/-! ## C6: the create/get round trip loses `ID` and `TokenHash` -/

/-- Counterexample to C6: `CreateSession` returns the stamped input (with
`ID = "sid"`, `TokenHash = "tok"`), every timestamp of which is a whole
second — yet the immediate `GetSession` returns a record with `ID` and
`TokenHash` empty, so the result's fields do not equal the input's even
modulo timestamp precision. -/
theorem create_get_drops_id_and_tokenHash :
    (createSession nsPerSec sessTok emptyStore).1 = .ok sessTokStamped ∧
    truncSec sessTokStamped.expiresAt = sessTokStamped.expiresAt ∧
    truncSec sessTokStamped.createdAt = sessTokStamped.createdAt ∧
    truncSec sessTokStamped.updatedAt = sessTokStamped.updatedAt ∧
    (getSession nsPerSec "u1" (createSession nsPerSec sessTok emptyStore).2).1 =
      .ok { id := "", userID := "u1", tokenHash := "", userAgent := "ua",
            ip := "ip", expiresAt := 2 * nsPerSec, createdAt := nsPerSec,
            updatedAt := nsPerSec } ∧
    (getSession nsPerSec "u1" (createSession nsPerSec sessTok emptyStore).2).1 ≠
      .ok sessTokStamped := by
  refine ⟨rfl, by decide, by decide, by decide, rfl, by decide⟩

/-- C6 amended: the round trip restores the six persisted fields —
`user_id`, `user_agent` and `ip` exactly, the three timestamps truncated to
whole seconds — while `ID` and `TokenHash`, which are not written to the
hash, come back as empty strings. -/
theorem create_get_roundtrip_persisted_fields (now0 now1 : Int)
    (s : UserSession) (st : RedisState) (hc : now0 < s.expiresAt)
    (hg : now1 ≤ truncSec s.expiresAt) :
    (createSession now0 s st).1 = .ok (mutSession now0 s) ∧
    (getSession now1 s.userID (createSession now0 s st).2).1 =
      .ok { id := "", userID := s.userID, tokenHash := "",
            userAgent := s.userAgent, ip := s.ip,
            expiresAt := truncSec s.expiresAt,
            createdAt := truncSec (mutSession now0 s).createdAt,
            updatedAt := truncSec now0 } :=
  createGet_roundtrip now0 now1 s st hc hg

/-- Witness for the amended C6 at the concrete fixture. -/
theorem create_get_roundtrip_persisted_fields_witness :
    (createSession nsPerSec sessTok emptyStore).1 =
      .ok (mutSession nsPerSec sessTok) ∧
    (getSession nsPerSec sessTok.userID
        (createSession nsPerSec sessTok emptyStore).2).1 =
      .ok { id := "", userID := sessTok.userID, tokenHash := "",
            userAgent := sessTok.userAgent, ip := sessTok.ip,
            expiresAt := truncSec sessTok.expiresAt,
            createdAt := truncSec (mutSession nsPerSec sessTok).createdAt,
            updatedAt := truncSec nsPerSec } :=
  create_get_roundtrip_persisted_fields nsPerSec nsPerSec sessTok emptyStore
    (by decide) (by decide)

/-! ## C10: absent or unparseable `expires_at` means expired, never a
defaulted record -/

/-- C10: when the stored hash's `expires_at` field is absent or does not
parse as RFC3339, the reconstructed `ExpiresAt` stays the zero instant, so
`GetSession` (at any instant after the zero time) classifies the session as
expired: it deletes the key and returns the expired error — it never returns
a record with a defaulted expiry. -/
theorem getSession_unparseable_expiry_treated_expired
    (now : Int) (u : String) (st : RedisState)
    (hne : hgetallRS st (sessionKey u) ≠ [])
    (hparse : timeField (hgetallRS st (sessionKey u)) "expires_at" = none)
    (hpos : 0 < now) :
    getSession now u st =
      (.error "session has expired", delRS st (sessionKey u)) := by
  unfold getSession
  rw [if_neg hne]
  rw [if_pos (show (readSession u (hgetallRS st (sessionKey u))).expiresAt < now from by
    rw [readSession_expiresAt, hparse]
    simpa using hpos)]

/-- Witness for C10: a hash without `expires_at` is treated as expired and
deleted. -/
theorem getSession_unparseable_expiry_treated_expired_witness :
    getSession 1 "u1" noExpStore =
      (.error "session has expired", delRS noExpStore (sessionKey "u1")) :=
  getSession_unparseable_expiry_treated_expired 1 "u1" noExpStore
    (by decide) (by decide) (by decide)
